import Mathlib

/-!
Verification of the job-status tracker in `shared/job_tracker.py`.

The file gives a shallow embedding of `SimpleJobTracker.get_pool` and
`SimpleJobTracker.update_status`, including the SQL upsert those
methods execute against the `pipeline_jobs` table, and proves the
stated properties of that embedding: upsert/merge semantics of the
`metadata` JSONB column, unconditional overwrite of `status`, `stage`
and `error_message`, the at-most-one-record-per-job invariant, the
swallow-all error handling, connection return, and the lazily created
process-wide connection pool.
-/

set_option autoImplicit false

namespace JobTracker

/-- JSON scalar values stored inside the `metadata` JSONB column.
Nested objects are not needed for the merge semantics (the merge is
shallow), so values are modelled as opaque scalars. -/
inductive JVal : Type where
  | jnull : JVal
  | jbool : Bool → JVal
  | jnum : Int → JVal
  | jstr : String → JVal
  deriving DecidableEq, Repr

/-- A JSON object, as an association list from keys to values.
A `Option Meta` models a nullable JSONB column (`none` = SQL NULL). -/
abbrev Meta := List (String × JVal)

/-- Key lookup in a JSON object: the value of the first entry whose key
matches, if any. -/
def mlook : Meta → String → Option JVal
  | [], _ => none
  | (k', v) :: rest, k => if k' = k then some v else mlook rest k

/-- Key lookup through a nullable JSONB column: NULL has no keys. -/
def mlookCol : Option Meta → String → Option JVal
  | none, _ => none
  | some m, k => mlook m k

/-- First-biased choice on optional values (used to state the merge:
the new write wins on keys present in both objects). -/
def ofirst : Option JVal → Option JVal → Option JVal
  | some v, _ => some v
  | none, b => b

/-- PostgreSQL JSONB concatenation `old || new` on two objects: the
union of both key sets, with `new`'s value winning for keys present in
both. -/
def jsonbConcat (old new : Meta) : Meta :=
  old.filter (fun p => (mlook new p.1).isNone) ++ new

/-- PostgreSQL JSONB concatenation on nullable operands: `||` returns
NULL whenever either operand is NULL. -/
def jsonbConcatNullable : Option Meta → Option Meta → Option Meta
  | some x, some y => some (jsonbConcat x y)
  | _, _ => none

/-- SQL `COALESCE` of three nullable JSONB expressions: the first
non-NULL argument, if any. -/
def sqlCoalesce3 : Option Meta → Option Meta → Option Meta → Option Meta
  | some x, _, _ => some x
  | none, some y, _ => some y
  | none, none, c => c

/-- The metadata expression of the upsert's `DO UPDATE SET` clause:
`COALESCE(pipeline_jobs.metadata || EXCLUDED.metadata,
pipeline_jobs.metadata, EXCLUDED.metadata)`. -/
def metadataMergeExpr (old new : Option Meta) : Option Meta :=
  sqlCoalesce3 (jsonbConcatNullable old new) old new

/-- The Python-side serialization of the `metadata` argument:
`json.dumps(metadata) if metadata else None`. Both `None` and the
falsy empty dict serialize to SQL NULL. -/
def pyJsonDumps : Option Meta → Option Meta
  | none => none
  | some m => if m.isEmpty then none else some m

/-- One row of the `pipeline_jobs` table. `updated_at` is the server
timestamp of the last write, modelled as a `Nat`. -/
structure JobRecord where
  job_id : String
  series_id : String
  status : String
  stage : String
  error_message : Option String
  metadata : Option Meta
  updated_at : Nat
  deriving DecidableEq, Repr

/-- The first row with the given `job_id`, if any (under the unique-key
invariant there is at most one). -/
def findRecord : List JobRecord → String → Option JobRecord
  | [], _ => none
  | r :: rs, j => if r.job_id = j then some r else findRecord rs j

/-- Whether some row with the given `job_id` exists: the condition that
makes the `INSERT` hit `ON CONFLICT (job_id)`. -/
def hasRecord : List JobRecord → String → Bool
  | [], _ => false
  | r :: rs, j => if r.job_id = j then true else hasRecord rs j

/-- Number of rows carrying the given `job_id`. -/
def countRecords : List JobRecord → String → Nat
  | [], _ => 0
  | r :: rs, j => (if r.job_id = j then 1 else 0) + countRecords rs j

/-- The `DO UPDATE SET` clause applied to the conflicting row:
`status`, `stage` and `error_message` are replaced by the excluded
(new) values, `metadata` goes through `metadataMergeExpr`, and
`updated_at` is set to `NOW()`. `series_id` is not assigned. -/
def doUpdateSet (status stage : String) (error_message : Option String)
    (newMeta : Option Meta) (now : Nat) (r : JobRecord) : JobRecord :=
  { r with
    status := status
    stage := stage
    error_message := error_message
    metadata := metadataMergeExpr r.metadata newMeta
    updated_at := now }

/-- Apply `f` to the first row with the given `job_id` (the conflicting
row of the unique index), leaving all other rows unchanged. -/
def updateFirst (f : JobRecord → JobRecord) : List JobRecord → String → List JobRecord
  | [], _ => []
  | r :: rs, j => if r.job_id = j then f r :: rs else r :: updateFirst f rs j

/-- The effect of the SQL statement
`INSERT INTO pipeline_jobs ... VALUES (... , NOW()) ON CONFLICT
(job_id) DO UPDATE SET ...` on the table: insert a fresh row when no
row with `job_id` exists, otherwise update the conflicting row. -/
def execUpsert (t : List JobRecord) (job_id series_id status stage : String)
    (error_message : Option String) (newMeta : Option Meta) (now : Nat) :
    List JobRecord :=
  if hasRecord t job_id then
    updateFirst (doUpdateSet status stage error_message newMeta now) t job_id
  else
    t ++ [⟨job_id, series_id, status, stage, error_message, newMeta, now⟩]

/-- The process environment, as read by `os.getenv`. -/
abbrev EnvMap := String → Option String

/-- `os.getenv(name, default)`. -/
def getenvD (env : EnvMap) (name dflt : String) : String :=
  (env name).getD dflt

/-- The configuration of the `ThreadedConnectionPool` built by
`get_pool`. The `DATABASE_PORT` value is kept as the string read from
the environment (the source converts it with `int(...)`). -/
structure PoolConfig where
  minconn : Nat
  maxconn : Nat
  host : String
  port : String
  database : String
  user : String
  password : String
  connect_timeout : Nat
  deriving DecidableEq, Repr

/-- The pool `get_pool` constructs on first use:
`ThreadedConnectionPool(minconn=1, maxconn=5, host=..., port=...,
database=..., user=..., password=..., connect_timeout=10)` with every
connection parameter read from the environment with its default. -/
def mkPool (env : EnvMap) : PoolConfig :=
  { minconn := 1
    maxconn := 5
    host := getenvD env "DATABASE_HOST" "timescaledb"
    port := getenvD env "DATABASE_PORT" "5432"
    database := getenvD env "DATABASE_NAME" "timeseries"
    user := getenvD env "DATABASE_USER" "tsuser"
    password := getenvD env "DATABASE_PASSWORD" "ts_password"
    connect_timeout := 10 }

/-- `SimpleJobTracker.get_pool`: return the pool stored in the class
attribute `_pool`, creating and storing it first when `_pool is None`.
Result: the pool handed to the caller and the new `_pool` attribute. -/
def get_pool (env : EnvMap) : Option PoolConfig → PoolConfig × Option PoolConfig
  | some cfg => (cfg, some cfg)
  | none => (mkPool env, some (mkPool env))

/-- Process-wide mutable state touched by the tracker: the class
attribute `SimpleJobTracker._pool` and the committed contents of the
`pipeline_jobs` table. -/
structure TrackerState where
  pool : Option PoolConfig
  table : List JobRecord
  deriving DecidableEq, Repr

/-- Fault oracle for one `update_status` call: which of the fallible
steps inside the `try` block raises. `failPoolCreate` is a failure of
the `ThreadedConnectionPool` constructor inside `get_pool` (before
`conn` is assigned), `failGetconn` a failure of `pool.getconn()`,
`failExecute` a failure of `cursor.execute(...)`, and `failCommit` a
failure of `conn.commit()`. -/
structure Fault where
  failPoolCreate : Bool
  failGetconn : Bool
  failExecute : Bool
  failCommit : Bool
  deriving DecidableEq, Repr

/-- The fault-free execution: every step succeeds. -/
def noFault : Fault := ⟨false, false, false, false⟩

/-- Observable outcome of one `update_status` call: the state after the
call, whether a connection was obtained from the pool, whether it was
returned by the `finally` block, and whether the transaction was
committed. -/
structure UpdateResult where
  state : TrackerState
  connObtained : Bool
  connReturned : Bool
  committed : Bool
  deriving DecidableEq, Repr

/-- `SimpleJobTracker.update_status`. The `try` block obtains the pool
(creating it on first use), takes a connection, executes the upsert and
commits; `except Exception` catches any failure, logs it, and rolls the
transaction back when a connection was assigned (so an uncommitted
upsert is discarded and the table keeps its previous committed
contents); the `finally` block returns the connection to the pool
whenever one was assigned. No exception escapes to the caller, hence
the result is always `Except.ok`; `Except.error` would model an
uncaught exception. -/
def update_status (env : EnvMap) (f : Fault) (s : TrackerState)
    (job_id series_id status stage : String)
    (error_message : Option String) (metadata : Option Meta)
    (now : Nat) : Except String UpdateResult :=
  if s.pool.isNone && f.failPoolCreate then
    -- get_pool raised while constructing the pool: `_pool` stays None,
    -- `conn` was never assigned, so except only logs and finally is a
    -- no-op.
    .ok ⟨s, false, false, false⟩
  else
    let cfg := (get_pool env s.pool).1
    let s1 : TrackerState := { s with pool := some cfg }
    if f.failGetconn then
      -- pool.getconn() raised: `conn` is still None, except only logs.
      .ok ⟨s1, false, false, false⟩
    else if f.failExecute then
      -- cursor.execute raised: except logs and conn.rollback()
      -- discards the open transaction; finally returns the connection.
      .ok ⟨s1, true, true, false⟩
    else if f.failCommit then
      -- conn.commit() raised: nothing was durably written; rollback
      -- discards the transaction; finally returns the connection.
      .ok ⟨s1, true, true, false⟩
    else
      -- Success: the upsert is committed, with the metadata argument
      -- serialized as `json.dumps(metadata) if metadata else None`.
      .ok ⟨{ s1 with
              table := execUpsert s1.table job_id series_id status stage
                error_message (pyJsonDumps metadata) now },
           true, true, true⟩

/-! ### Helper lemmas on metadata lookup and merge -/

theorem mlook_append (a b : Meta) (k : String) :
    mlook (a ++ b) k = ofirst (mlook a k) (mlook b k) := by
  induction a with
  | nil => simp [mlook, ofirst]
  | cons p rest ih =>
    obtain ⟨k', v⟩ := p
    by_cases h : k' = k <;> simp [mlook, h, ofirst, ih]

theorem mlook_filter_key (q : String → Bool) (m : Meta) (k : String) :
    mlook (m.filter (fun p => q p.1)) k = if q k then mlook m k else none := by
  induction m with
  | nil => simp [mlook]
  | cons p rest ih =>
    obtain ⟨k', v⟩ := p
    by_cases h : k' = k
    · subst h
      by_cases hq : q k' <;> simp [mlook, hq, ih]
    · by_cases hq : q k' <;> simp [mlook, h, hq, ih]

theorem mlook_jsonbConcat (o n : Meta) (k : String) :
    mlook (jsonbConcat o n) k = ofirst (mlook n k) (mlook o k) := by
  unfold jsonbConcat
  rw [mlook_append, mlook_filter_key (fun k => (mlook n k).isNone)]
  cases h : mlook n k with
  | some v => simp [h, ofirst]
  | none => cases ho : mlook o k <;> simp [h, ho, ofirst]

theorem mlookCol_mergeExpr (old new : Option Meta) (k : String) :
    mlookCol (metadataMergeExpr old new) k =
      ofirst (mlookCol new k) (mlookCol old k) := by
  cases old with
  | none =>
    cases new with
    | none =>
      simp [metadataMergeExpr, jsonbConcatNullable, sqlCoalesce3, mlookCol, ofirst]
    | some n =>
      cases h : mlook n k <;>
        simp [metadataMergeExpr, jsonbConcatNullable, sqlCoalesce3, mlookCol,
          ofirst, h]
  | some o =>
    cases new with
    | none =>
      simp [metadataMergeExpr, jsonbConcatNullable, sqlCoalesce3, mlookCol, ofirst]
    | some n =>
      simp [metadataMergeExpr, jsonbConcatNullable, sqlCoalesce3, mlookCol,
        mlook_jsonbConcat, ofirst]

theorem mlookCol_pyJsonDumps (md : Option Meta) (k : String) :
    mlookCol (pyJsonDumps md) k = mlookCol md k := by
  cases md with
  | none => rfl
  | some m => cases m <;> simp [pyJsonDumps, mlookCol, mlook]

theorem mergeExpr_none_right (old : Option Meta) :
    metadataMergeExpr old none = old := by
  cases old <;> rfl

theorem mergeExpr_none_left (new : Option Meta) :
    metadataMergeExpr none new = new := by
  cases new <;> rfl

/-! ### Helper lemmas on the table -/

theorem hasRecord_eq_isSome (t : List JobRecord) (j : String) :
    hasRecord t j = (findRecord t j).isSome := by
  induction t with
  | nil => rfl
  | cons r rs ih => by_cases h : r.job_id = j <;> simp [hasRecord, findRecord, h, ih]

theorem findRecord_updateFirst (f : JobRecord → JobRecord)
    (hf : ∀ x, (f x).job_id = x.job_id)
    (t : List JobRecord) (j : String) (r : JobRecord)
    (h : findRecord t j = some r) :
    findRecord (updateFirst f t j) j = some (f r) := by
  induction t with
  | nil => simp [findRecord] at h
  | cons x rs ih =>
    by_cases hx : x.job_id = j
    · simp [findRecord, hx] at h
      subst h
      simp [updateFirst, findRecord, hx, hf x]
    · simp [findRecord, hx] at h
      simp [updateFirst, findRecord, hx, ih h]

theorem findRecord_append_right (t l : List JobRecord) (j : String)
    (h : findRecord t j = none) :
    findRecord (t ++ l) j = findRecord l j := by
  induction t with
  | nil => rfl
  | cons x rs ih =>
    by_cases hx : x.job_id = j
    · simp [findRecord, hx] at h
    · simp [findRecord, hx] at h ⊢
      exact ih h

theorem countRecords_updateFirst (f : JobRecord → JobRecord)
    (hf : ∀ x, (f x).job_id = x.job_id)
    (t : List JobRecord) (j j' : String) :
    countRecords (updateFirst f t j) j' = countRecords t j' := by
  induction t with
  | nil => rfl
  | cons x rs ih =>
    by_cases hx : x.job_id = j
    · simp [updateFirst, countRecords, hx, hf x]
    · simp [updateFirst, countRecords, hx, ih]

theorem countRecords_append (t l : List JobRecord) (j : String) :
    countRecords (t ++ l) j = countRecords t j + countRecords l j := by
  induction t with
  | nil => simp [countRecords]
  | cons x rs ih => simp [countRecords, ih]; omega

theorem countRecords_eq_zero (t : List JobRecord) (j : String)
    (h : findRecord t j = none) : countRecords t j = 0 := by
  induction t with
  | nil => rfl
  | cons x rs ih =>
    by_cases hx : x.job_id = j
    · simp [findRecord, hx] at h
    · simp [findRecord, hx] at h
      simp [countRecords, hx, ih h]

theorem execUpsert_existing (t : List JobRecord)
    (job_id series_id status stage : String) (em : Option String)
    (md : Option Meta) (now : Nat) (r : JobRecord)
    (h : findRecord t job_id = some r) :
    findRecord (execUpsert t job_id series_id status stage em md now) job_id =
      some (doUpdateSet status stage em md now r) := by
  have hh : hasRecord t job_id = true := by
    rw [hasRecord_eq_isSome, h]; rfl
  unfold execUpsert
  rw [hh]
  simp only [if_true]
  exact findRecord_updateFirst (doUpdateSet status stage em md now)
    (fun x => rfl) t job_id r h

theorem execUpsert_fresh (t : List JobRecord)
    (job_id series_id status stage : String) (em : Option String)
    (md : Option Meta) (now : Nat)
    (h : findRecord t job_id = none) :
    execUpsert t job_id series_id status stage em md now =
      t ++ [⟨job_id, series_id, status, stage, em, md, now⟩] := by
  have hh : hasRecord t job_id = false := by
    rw [hasRecord_eq_isSome, h]; rfl
  unfold execUpsert
  rw [hh]
  simp

theorem execUpsert_find_self (t : List JobRecord)
    (job_id series_id status stage : String) (em : Option String)
    (md : Option Meta) (now : Nat) :
    ∃ r2, findRecord (execUpsert t job_id series_id status stage em md now) job_id
        = some r2 ∧
      r2.updated_at = now ∧ r2.status = status ∧ r2.stage = stage ∧
      r2.error_message = em := by
  cases h : findRecord t job_id with
  | some r =>
    exact ⟨doUpdateSet status stage em md now r,
      execUpsert_existing t job_id series_id status stage em md now r h,
      rfl, rfl, rfl, rfl⟩
  | none =>
    refine ⟨⟨job_id, series_id, status, stage, em, md, now⟩, ?_, rfl, rfl, rfl, rfl⟩
    rw [execUpsert_fresh t job_id series_id status stage em md now h,
      findRecord_append_right t _ job_id h]
    simp [findRecord]

/-- The fault-free call reduces to a committed upsert. -/
theorem update_status_noFault (env : EnvMap) (s : TrackerState)
    (job_id series_id status stage : String)
    (em : Option String) (md : Option Meta) (now : Nat) :
    update_status env noFault s job_id series_id status stage em md now =
      .ok ⟨⟨some (get_pool env s.pool).1,
            execUpsert s.table job_id series_id status stage em
              (pyJsonDumps md) now⟩,
           true, true, true⟩ := by
  simp [update_status, noFault]

theorem hasRecord_updateFirst (f : JobRecord → JobRecord)
    (hf : ∀ x, (f x).job_id = x.job_id)
    (t : List JobRecord) (j0 j : String) :
    hasRecord (updateFirst f t j0) j = hasRecord t j := by
  induction t with
  | nil => rfl
  | cons x rs ih =>
    by_cases hx : x.job_id = j0
    · simp [updateFirst, hasRecord, hx, hf x]
    · simp [updateFirst, hasRecord, hx, ih]

theorem hasRecord_append (t l : List JobRecord) (j : String) :
    hasRecord (t ++ l) j = (hasRecord t j || hasRecord l j) := by
  induction t with
  | nil => rfl
  | cons x rs ih =>
    by_cases hx : x.job_id = j <;> simp [hasRecord, hx, ih]

theorem hasRecord_eq_false (t : List JobRecord) (j : String)
    (h : ¬ hasRecord t j = true) : hasRecord t j = false := by
  cases hb : hasRecord t j
  · rfl
  · exact absurd hb h

theorem findRecord_none_of_hasRecord_false (t : List JobRecord) (j : String)
    (h : hasRecord t j = false) : findRecord t j = none := by
  rw [hasRecord_eq_isSome] at h
  cases hr : findRecord t j with
  | none => rfl
  | some r => rw [hr] at h; exact absurd h (by simp)

/-- The upsert never produces a second row for a `job_id` that already
had at most one row. -/
theorem countRecords_execUpsert (t : List JobRecord)
    (job_id series_id status stage : String) (em : Option String)
    (md : Option Meta) (now : Nat) (j : String)
    (hc : countRecords t j ≤ 1) :
    countRecords (execUpsert t job_id series_id status stage em md now) j ≤ 1 := by
  unfold execUpsert
  by_cases hh : hasRecord t job_id = true
  · rw [if_pos hh, countRecords_updateFirst (doUpdateSet status stage em md now)
      (fun x => rfl)]
    exact hc
  · rw [if_neg hh, countRecords_append]
    have hn : findRecord t job_id = none :=
      findRecord_none_of_hasRecord_false t job_id (hasRecord_eq_false t job_id hh)
    by_cases hj : job_id = j
    · subst hj
      rw [countRecords_eq_zero t job_id hn]
      simp [countRecords]
    · have : countRecords [(⟨job_id, series_id, status, stage, em, md, now⟩ :
          JobRecord)] j = 0 := by
        simp [countRecords, hj]
      omega

/-- The upsert never deletes a row: every `job_id` present before is
present after. -/
theorem hasRecord_execUpsert (t : List JobRecord)
    (job_id series_id status stage : String) (em : Option String)
    (md : Option Meta) (now : Nat) (j : String)
    (h : hasRecord t j = true) :
    hasRecord (execUpsert t job_id series_id status stage em md now) j = true := by
  unfold execUpsert
  by_cases hh : hasRecord t job_id = true
  · rw [if_pos hh, hasRecord_updateFirst (doUpdateSet status stage em md now)
      (fun x => rfl)]
    exact h
  · rw [if_neg hh, hasRecord_append, h]
    rfl

/-- Every call returns `.ok`, and the table either stays at its
previous committed contents (rollback) or is the committed upsert. -/
theorem update_status_cases (env : EnvMap) (f : Fault) (s : TrackerState)
    (job_id series_id status stage : String)
    (em : Option String) (md : Option Meta) (now : Nat) :
    ∃ res, update_status env f s job_id series_id status stage em md now
        = .ok res ∧
      ((res.committed = false ∧ res.state.table = s.table) ∨
       (res.committed = true ∧ res.state.table =
          execUpsert s.table job_id series_id status stage em
            (pyJsonDumps md) now)) := by
  unfold update_status
  split
  · exact ⟨_, rfl, .inl ⟨rfl, rfl⟩⟩
  · split
    · exact ⟨_, rfl, .inl ⟨rfl, rfl⟩⟩
    · split
      · exact ⟨_, rfl, .inl ⟨rfl, rfl⟩⟩
      · split
        · exact ⟨_, rfl, .inl ⟨rfl, rfl⟩⟩
        · exact ⟨_, rfl, .inr ⟨rfl, rfl⟩⟩

/-- Every call returns `.ok`, and the `_pool` class attribute is left
unchanged exactly when pool creation failed, otherwise it holds the
pool returned by `get_pool`. -/
theorem update_status_pool_cases (env : EnvMap) (f : Fault) (s : TrackerState)
    (job_id series_id status stage : String)
    (em : Option String) (md : Option Meta) (now : Nat) :
    ∃ res, update_status env f s job_id series_id status stage em md now
        = .ok res ∧
      ((s.pool.isNone && f.failPoolCreate) = true ∧ res.state.pool = s.pool ∨
       (s.pool.isNone && f.failPoolCreate) = false ∧
         res.state.pool = some (get_pool env s.pool).1) := by
  unfold update_status
  split
  · rename_i h
    exact ⟨_, rfl, Or.inl ⟨h, rfl⟩⟩
  · rename_i h
    have hf : (s.pool.isNone && f.failPoolCreate) = false := by
      cases hb : (s.pool.isNone && f.failPoolCreate)
      · rfl
      · exact absurd hb h
    split
    · exact ⟨_, rfl, Or.inr ⟨hf, rfl⟩⟩
    · split
      · exact ⟨_, rfl, Or.inr ⟨hf, rfl⟩⟩
      · split
        · exact ⟨_, rfl, Or.inr ⟨hf, rfl⟩⟩
        · exact ⟨_, rfl, Or.inr ⟨hf, rfl⟩⟩

/-! ### Concrete fixtures used by the witness theorems -/

/-- A concrete environment with no database variables set. -/
def wEnv : EnvMap := fun _ => none

/-- A concrete stored row for job `job1`, with an error message and
metadata key `a` from an earlier write. -/
def wRec : JobRecord :=
  ⟨"job1", "AAPL", "failed", "ingestion", some "boom",
    some [("a", JVal.jnum 1)], 5⟩

/-- A tracker state whose table already holds `wRec` (pool not yet
created). -/
def wState : TrackerState := ⟨none, [wRec]⟩

/-- A tracker state with an empty table. -/
def wEmpty : TrackerState := ⟨none, []⟩

/-- The new metadata written in the witness scenarios. -/
def wNewMeta : Option Meta := some [("b", JVal.jnum 2)]

/-! ### Claim theorems -/

/-- Claim C1: on a `job_id` that already has a stored record, the
stored metadata after the call is the shallow merge of the old stored
metadata with the newly supplied metadata — union of both key sets,
the new write winning on shared keys, keys absent from the new write
keeping their old values; a call with no metadata leaves the old
stored metadata unchanged; with no old metadata, the new metadata (or
its absence) is stored as-is. -/
theorem claim_C1_metadata_shallow_merge (env : EnvMap) (s : TrackerState)
    (job_id series_id status stage : String)
    (em : Option String) (md : Option Meta) (now : Nat) (r : JobRecord)
    (hr : findRecord s.table job_id = some r) :
    ∃ res, update_status env noFault s job_id series_id status stage em md now
        = .ok res ∧
      ∃ r2, findRecord res.state.table job_id = some r2 ∧
        (∀ k, mlookCol r2.metadata k =
          ofirst (mlookCol md k) (mlookCol r.metadata k)) ∧
        (md = none → r2.metadata = r.metadata) ∧
        (r.metadata = none → r2.metadata = pyJsonDumps md) := by
  refine ⟨_, update_status_noFault env s job_id series_id status stage em md now,
    doUpdateSet status stage em (pyJsonDumps md) now r,
    execUpsert_existing s.table job_id series_id status stage em
      (pyJsonDumps md) now r hr, ?_, ?_, ?_⟩
  · intro k
    show mlookCol (metadataMergeExpr r.metadata (pyJsonDumps md)) k = _
    rw [mlookCol_mergeExpr, mlookCol_pyJsonDumps]
  · intro h
    subst h
    show metadataMergeExpr r.metadata (pyJsonDumps none) = r.metadata
    exact mergeExpr_none_right r.metadata
  · intro h
    show metadataMergeExpr r.metadata (pyJsonDumps md) = pyJsonDumps md
    rw [h]
    exact mergeExpr_none_left (pyJsonDumps md)

/-- Witness for C1: the spec's own example — old metadata has key `a`,
the new write has key `b`, the merge keeps both. -/
theorem claim_C1_witness :
    findRecord wState.table "job1" = some wRec ∧
    (∃ res, update_status wEnv noFault wState "job1" "AAPL" "completed"
        "forecasting" none wNewMeta 9 = .ok res ∧
      ∃ r2, findRecord res.state.table "job1" = some r2 ∧
        (∀ k, mlookCol r2.metadata k =
          ofirst (mlookCol wNewMeta k) (mlookCol wRec.metadata k)) ∧
        (wNewMeta = none → r2.metadata = wRec.metadata) ∧
        (wRec.metadata = none → r2.metadata = pyJsonDumps wNewMeta)) :=
  ⟨rfl, claim_C1_metadata_shallow_merge wEnv wState "job1" "AAPL" "completed"
    "forecasting" none wNewMeta 9 wRec rfl⟩

/-- Claim C2: every call returns normally for every fault
configuration — the `except Exception` block swallows any failure —
and a call that did not commit leaves the table at its previous
committed contents (the rollback discards the partial write). -/
theorem claim_C2_failures_swallowed (env : EnvMap) (f : Fault)
    (s : TrackerState) (job_id series_id status stage : String)
    (em : Option String) (md : Option Meta) (now : Nat) :
    ∃ res, update_status env f s job_id series_id status stage em md now
        = .ok res ∧
      (res.committed = false → res.state.table = s.table) := by
  obtain ⟨res, h1, h2⟩ :=
    update_status_cases env f s job_id series_id status stage em md now
  refine ⟨res, h1, fun hf => ?_⟩
  rcases h2 with ⟨_, ht⟩ | ⟨hc, _⟩
  · exact ht
  · rw [hc] at hf
    exact Bool.noConfusion hf

/-- Witness for C2: a simulated `cursor.execute` failure returns
normally and leaves the table unchanged. -/
theorem claim_C2_witness :
    ∃ res, update_status wEnv ⟨false, false, true, false⟩ wState "job1" "AAPL"
        "running" "ingestion" none none 7 = .ok res ∧
      (res.committed = false → res.state.table = wState.table) :=
  claim_C2_failures_swallowed wEnv ⟨false, false, true, false⟩ wState "job1"
    "AAPL" "running" "ingestion" none none 7

/-- Claim C3: on a `job_id` that already has a stored record, the
stored `status`, `stage` and `error_message` are unconditionally
replaced by the new call's values — including overwriting with an
absent (NULL) value, so a call without an error message clears a
previously stored error. -/
theorem claim_C3_overwrite_fields (env : EnvMap) (s : TrackerState)
    (job_id series_id status stage : String)
    (em : Option String) (md : Option Meta) (now : Nat) (r : JobRecord)
    (hr : findRecord s.table job_id = some r) :
    ∃ res, update_status env noFault s job_id series_id status stage em md now
        = .ok res ∧
      ∃ r2, findRecord res.state.table job_id = some r2 ∧
        r2.status = status ∧ r2.stage = stage ∧ r2.error_message = em ∧
        (em = none → r2.error_message = none) :=
  ⟨_, update_status_noFault env s job_id series_id status stage em md now,
    doUpdateSet status stage em (pyJsonDumps md) now r,
    execUpsert_existing s.table job_id series_id status stage em
      (pyJsonDumps md) now r hr, rfl, rfl, rfl, fun h => h⟩

/-- Witness for C3: a second call with a different status, no error
message, replaces the stored status and clears the stored error. -/
theorem claim_C3_witness :
    findRecord wState.table "job1" = some wRec ∧
    (∃ res, update_status wEnv noFault wState "job1" "AAPL" "completed"
        "forecasting" none none 9 = .ok res ∧
      ∃ r2, findRecord res.state.table "job1" = some r2 ∧
        r2.status = "completed" ∧ r2.stage = "forecasting" ∧
        r2.error_message = none ∧
        ((none : Option String) = none → r2.error_message = none)) :=
  ⟨rfl, claim_C3_overwrite_fields wEnv wState "job1" "AAPL" "completed"
    "forecasting" none none 9 wRec rfl⟩

/-- Claim C4: on a `job_id` with no stored record, exactly one new row
is created, holding the given `job_id`, `series_id`, `status`,
`stage`, `error_message` and metadata (serialized from the argument,
so carrying exactly the supplied keys), with `updated_at` set to the
time of the write. -/
theorem claim_C4_insert_fresh (env : EnvMap) (s : TrackerState)
    (job_id series_id status stage : String)
    (em : Option String) (md : Option Meta) (now : Nat)
    (h : findRecord s.table job_id = none) :
    ∃ res, update_status env noFault s job_id series_id status stage em md now
        = .ok res ∧
      res.state.table =
        s.table ++ [⟨job_id, series_id, status, stage, em, pyJsonDumps md, now⟩] ∧
      countRecords res.state.table job_id = 1 ∧
      findRecord res.state.table job_id =
        some ⟨job_id, series_id, status, stage, em, pyJsonDumps md, now⟩ ∧
      (∀ k, mlookCol (pyJsonDumps md) k = mlookCol md k) := by
  have htab := execUpsert_fresh s.table job_id series_id status stage em
    (pyJsonDumps md) now h
  refine ⟨_, update_status_noFault env s job_id series_id status stage em md now,
    ?_, ?_, ?_, fun k => mlookCol_pyJsonDumps md k⟩
  · exact htab
  · show countRecords (execUpsert s.table job_id series_id status stage em
      (pyJsonDumps md) now) job_id = 1
    rw [htab, countRecords_append, countRecords_eq_zero s.table job_id h]
    simp [countRecords]
  · show findRecord (execUpsert s.table job_id series_id status stage em
      (pyJsonDumps md) now) job_id = _
    rw [htab, findRecord_append_right s.table _ job_id h]
    simp [findRecord]

/-- Witness for C4: the first write for `job1` on an empty table
creates exactly the one expected row. -/
theorem claim_C4_witness :
    findRecord wEmpty.table "job1" = none ∧
    (∃ res, update_status wEnv noFault wEmpty "job1" "AAPL" "running"
        "ingestion" none wNewMeta 5 = .ok res ∧
      res.state.table = wEmpty.table ++
        [⟨"job1", "AAPL", "running", "ingestion", none, pyJsonDumps wNewMeta, 5⟩] ∧
      countRecords res.state.table "job1" = 1 ∧
      findRecord res.state.table "job1" =
        some ⟨"job1", "AAPL", "running", "ingestion", none, pyJsonDumps wNewMeta, 5⟩ ∧
      (∀ k, mlookCol (pyJsonDumps wNewMeta) k = mlookCol wNewMeta k)) :=
  ⟨rfl, claim_C4_insert_fresh wEnv wEmpty "job1" "AAPL" "running" "ingestion"
    none wNewMeta 5 rfl⟩

/-- Claim C5: after any call — committed or rolled back, under any
fault configuration — a `job_id` that had at most one row still has at
most one row, and a `job_id` that had a row still has one (the upsert
updates in place and never deletes). -/
theorem claim_C5_at_most_one_record (env : EnvMap) (f : Fault)
    (s : TrackerState) (job_id series_id status stage : String)
    (em : Option String) (md : Option Meta) (now : Nat) (j : String)
    (hc : countRecords s.table j ≤ 1) :
    ∃ res, update_status env f s job_id series_id status stage em md now
        = .ok res ∧
      countRecords res.state.table j ≤ 1 ∧
      (hasRecord s.table j = true → hasRecord res.state.table j = true) := by
  obtain ⟨res, h1, h2⟩ :=
    update_status_cases env f s job_id series_id status stage em md now
  rcases h2 with ⟨_, ht⟩ | ⟨_, ht⟩
  · refine ⟨res, h1, ?_, fun h => ?_⟩
    · rw [ht]
      exact hc
    · rw [ht]
      exact h
  · refine ⟨res, h1, ?_, fun h => ?_⟩
    · rw [ht]
      exact countRecords_execUpsert s.table job_id series_id status stage em
        (pyJsonDumps md) now j hc
    · rw [ht]
      exact hasRecord_execUpsert s.table job_id series_id status stage em
        (pyJsonDumps md) now j h

/-- Witness for C5: a repeat write for `job1` keeps exactly one row
for it. -/
theorem claim_C5_witness :
    countRecords wState.table "job1" ≤ 1 ∧
    (∃ res, update_status wEnv noFault wState "job1" "AAPL" "completed"
        "forecasting" none none 9 = .ok res ∧
      countRecords res.state.table "job1" ≤ 1 ∧
      (hasRecord wState.table "job1" = true →
        hasRecord res.state.table "job1" = true)) :=
  ⟨by decide, claim_C5_at_most_one_record wEnv noFault wState "job1" "AAPL"
    "completed" "forecasting" none none 9 "job1" (by decide)⟩

/-- Claim C6: on every path — success or any failure — a call that
obtained a connection from the pool returns it before exiting (the
`finally` block), and a call that obtained none returns none. -/
theorem claim_C6_conn_returned (env : EnvMap) (f : Fault) (s : TrackerState)
    (job_id series_id status stage : String)
    (em : Option String) (md : Option Meta) (now : Nat) :
    ∃ res, update_status env f s job_id series_id status stage em md now
        = .ok res ∧
      res.connReturned = res.connObtained := by
  unfold update_status
  split
  · exact ⟨_, rfl, rfl⟩
  · split
    · exact ⟨_, rfl, rfl⟩
    · split
      · exact ⟨_, rfl, rfl⟩
      · split
        · exact ⟨_, rfl, rfl⟩
        · exact ⟨_, rfl, rfl⟩

/-- Witness for C6: a call whose commit fails still returns its
connection to the pool. -/
theorem claim_C6_witness :
    ∃ res, update_status wEnv ⟨false, false, false, true⟩ wState "job1" "AAPL"
        "running" "ingestion" none none 7 = .ok res ∧
      res.connReturned = res.connObtained :=
  claim_C6_conn_returned wEnv ⟨false, false, false, true⟩ wState "job1" "AAPL"
    "running" "ingestion" none none 7

/-- Claim C7: `get_pool` lazily creates the process-wide pool on first
use with fixed configuration (`minconn=1`, `maxconn=5`,
`connect_timeout=10`, connection parameters read from the environment
with their defaults), returns the stored pool unchanged on every later
call, and no `update_status` call ever replaces an existing pool with
a second one. -/
theorem claim_C7_pool_singleton (env : EnvMap) :
    (∀ cfg, get_pool env (some cfg) = (cfg, some cfg)) ∧
    get_pool env none = (mkPool env, some (mkPool env)) ∧
    (mkPool env).minconn = 1 ∧ (mkPool env).maxconn = 5 ∧
    (mkPool env).connect_timeout = 10 ∧
    (mkPool env).host = getenvD env "DATABASE_HOST" "timescaledb" ∧
    (mkPool env).port = getenvD env "DATABASE_PORT" "5432" ∧
    (mkPool env).database = getenvD env "DATABASE_NAME" "timeseries" ∧
    (mkPool env).user = getenvD env "DATABASE_USER" "tsuser" ∧
    (mkPool env).password = getenvD env "DATABASE_PASSWORD" "ts_password" ∧
    (∀ f s job_id series_id status stage em md now cfg,
      s.pool = some cfg →
      ∀ res, update_status env f s job_id series_id status stage em md now
          = .ok res →
        res.state.pool = some cfg) ∧
    (∀ f s job_id series_id status stage em md now,
      s.pool = none → f.failPoolCreate = false →
      ∀ res, update_status env f s job_id series_id status stage em md now
          = .ok res →
        res.state.pool = some (mkPool env)) := by
  refine ⟨fun cfg => rfl, rfl, rfl, rfl, rfl, rfl, rfl, rfl, rfl, rfl, ?_, ?_⟩
  · intro f s job_id series_id status stage em md now cfg hp res hres
    obtain ⟨res', h1, h2⟩ :=
      update_status_pool_cases env f s job_id series_id status stage em md now
    rw [h1] at hres
    injection hres with he
    subst he
    rcases h2 with ⟨hcond, _⟩ | ⟨_, hpool⟩
    · rw [hp] at hcond
      simp at hcond
    · rw [hpool, hp]
      rfl
  · intro f s job_id series_id status stage em md now hp hfc res hres
    obtain ⟨res', h1, h2⟩ :=
      update_status_pool_cases env f s job_id series_id status stage em md now
    rw [h1] at hres
    injection hres with he
    subst he
    rcases h2 with ⟨hcond, _⟩ | ⟨_, hpool⟩
    · rw [hp, hfc] at hcond
      simp at hcond
    · rw [hpool, hp]
      rfl

/-- Witness for C7: with an empty environment the pool is created with
the default host and the fixed bounds, and a stored pool is returned
unchanged. -/
theorem claim_C7_witness :
    (mkPool wEnv).minconn = 1 ∧ (mkPool wEnv).maxconn = 5 ∧
    (mkPool wEnv).host = "timescaledb" ∧
    get_pool wEnv (some (mkPool wEnv)) = (mkPool wEnv, some (mkPool wEnv)) := by
  obtain ⟨h1, _, h3, h4, _, _, _, _, _, _, _, _⟩ := claim_C7_pool_singleton wEnv
  exact ⟨h3, h4, rfl, h1 (mkPool wEnv)⟩

/-- Claim C8: every successful write stamps the stored row's
`updated_at` with the time of that write, so across two successive
successful writes at strictly increasing server times the stored
`updated_at` strictly increases. -/
theorem claim_C8_updated_at_increases (env : EnvMap) (s : TrackerState)
    (job_id series_id1 status1 stage1 series_id2 status2 stage2 : String)
    (em1 em2 : Option String) (md1 md2 : Option Meta) (now1 now2 : Nat)
    (hlt : now1 < now2) :
    ∃ res1, update_status env noFault s job_id series_id1 status1 stage1 em1
        md1 now1 = .ok res1 ∧
    ∃ r1, findRecord res1.state.table job_id = some r1 ∧
      r1.updated_at = now1 ∧
    ∃ res2, update_status env noFault res1.state job_id series_id2 status2
        stage2 em2 md2 now2 = .ok res2 ∧
    ∃ r2, findRecord res2.state.table job_id = some r2 ∧
      r2.updated_at = now2 ∧ r1.updated_at < r2.updated_at := by
  refine ⟨_, update_status_noFault env s job_id series_id1 status1 stage1 em1
    md1 now1, ?_⟩
  obtain ⟨r1, hf1, hu1, _, _, _⟩ := execUpsert_find_self s.table job_id
    series_id1 status1 stage1 em1 (pyJsonDumps md1) now1
  refine ⟨r1, hf1, hu1, ?_⟩
  refine ⟨_, update_status_noFault env _ job_id series_id2 status2 stage2 em2
    md2 now2, ?_⟩
  obtain ⟨r2, hf2, hu2, _, _, _⟩ := execUpsert_find_self
    (execUpsert s.table job_id series_id1 status1 stage1 em1
      (pyJsonDumps md1) now1)
    job_id series_id2 status2 stage2 em2 (pyJsonDumps md2) now2
  refine ⟨r2, hf2, hu2, ?_⟩
  rw [hu1, hu2]
  exact hlt

/-- Witness for C8: two successful writes at times 5 and 9 leave
strictly increasing timestamps. -/
theorem claim_C8_witness :
    (5 : Nat) < 9 ∧
    (∃ res1, update_status wEnv noFault wEmpty "job1" "AAPL" "running"
        "ingestion" none none 5 = .ok res1 ∧
     ∃ r1, findRecord res1.state.table "job1" = some r1 ∧
       r1.updated_at = 5 ∧
     ∃ res2, update_status wEnv noFault res1.state "job1" "AAPL" "completed"
        "forecasting" none none 9 = .ok res2 ∧
     ∃ r2, findRecord res2.state.table "job1" = some r2 ∧
       r2.updated_at = 9 ∧ r1.updated_at < r2.updated_at) :=
  ⟨by decide, claim_C8_updated_at_increases wEnv wEmpty "job1" "AAPL" "running"
    "ingestion" "AAPL" "completed" "forecasting" none none none none 5 9
    (by decide)⟩

/-- Claim C9: the conflict-update branch never assigns `series_id`, so
an update call — even with a different `series_id` argument — leaves
the stored `series_id` at its value from the row's creation, while the
other columns are set to the new call's values. -/
theorem claim_C9_series_id_frame (env : EnvMap) (s : TrackerState)
    (job_id series_id2 status stage : String)
    (em : Option String) (md : Option Meta) (now : Nat) (r : JobRecord)
    (hr : findRecord s.table job_id = some r) :
    ∃ res, update_status env noFault s job_id series_id2 status stage em md now
        = .ok res ∧
      ∃ r2, findRecord res.state.table job_id = some r2 ∧
        r2.series_id = r.series_id ∧ r2.job_id = r.job_id ∧
        r2.status = status ∧ r2.stage = stage ∧
        r2.error_message = em ∧ r2.updated_at = now :=
  ⟨_, update_status_noFault env s job_id series_id2 status stage em md now,
    doUpdateSet status stage em (pyJsonDumps md) now r,
    execUpsert_existing s.table job_id series_id2 status stage em
      (pyJsonDumps md) now r hr, rfl, rfl, rfl, rfl, rfl, rfl⟩

/-- Witness for C9: an update supplying series `MSFT` for a row
created with series `AAPL` keeps the stored `AAPL`. -/
theorem claim_C9_witness :
    findRecord wState.table "job1" = some wRec ∧
    (∃ res, update_status wEnv noFault wState "job1" "MSFT" "completed"
        "forecasting" none none 9 = .ok res ∧
      ∃ r2, findRecord res.state.table "job1" = some r2 ∧
        r2.series_id = wRec.series_id ∧ r2.job_id = wRec.job_id ∧
        r2.status = "completed" ∧ r2.stage = "forecasting" ∧
        r2.error_message = none ∧ r2.updated_at = 9) :=
  ⟨rfl, claim_C9_series_id_frame wEnv wState "job1" "MSFT" "completed"
    "forecasting" none none 9 wRec rfl⟩

/-- Claim C10: passing the empty metadata mapping behaves exactly like
passing no metadata: the call results are identical, the empty dict
serializes to NULL, a first write stores a NULL metadata column, and
an update preserves the previously stored metadata unchanged. -/
theorem claim_C10_empty_metadata_is_none (env : EnvMap) (f : Fault)
    (s : TrackerState) (job_id series_id status stage : String)
    (em : Option String) (now : Nat) :
    update_status env f s job_id series_id status stage em (some []) now =
      update_status env f s job_id series_id status stage em none now ∧
    pyJsonDumps (some []) = none ∧
    (findRecord s.table job_id = none →
      ∃ res, update_status env noFault s job_id series_id status stage em
          (some []) now = .ok res ∧
        findRecord res.state.table job_id =
          some ⟨job_id, series_id, status, stage, em, none, now⟩) ∧
    (∀ r, findRecord s.table job_id = some r →
      ∃ res, update_status env noFault s job_id series_id status stage em
          (some []) now = .ok res ∧
        ∃ r2, findRecord res.state.table job_id = some r2 ∧
          r2.metadata = r.metadata) := by
  refine ⟨rfl, rfl, fun h => ?_, fun r hr => ?_⟩
  · refine ⟨_, update_status_noFault env s job_id series_id status stage em
      (some []) now, ?_⟩
    show findRecord (execUpsert s.table job_id series_id status stage em
      (pyJsonDumps (some [])) now) job_id = _
    rw [execUpsert_fresh s.table job_id series_id status stage em
      (pyJsonDumps (some [])) now h,
      findRecord_append_right s.table _ job_id h]
    simp [findRecord]
    rfl
  · refine ⟨_, update_status_noFault env s job_id series_id status stage em
      (some []) now,
      doUpdateSet status stage em (pyJsonDumps (some [])) now r,
      execUpsert_existing s.table job_id series_id status stage em
        (pyJsonDumps (some [])) now r hr, ?_⟩
    show metadataMergeExpr r.metadata (pyJsonDumps (some [])) = r.metadata
    exact mergeExpr_none_right r.metadata

/-- Witness for C10: an update for `job1` with the empty mapping
equals the call without metadata and keeps the stored metadata. -/
theorem claim_C10_witness :
    update_status wEnv noFault wState "job1" "AAPL" "running" "ingestion" none
      (some []) 9 =
      update_status wEnv noFault wState "job1" "AAPL" "running" "ingestion"
        none none 9 ∧
    pyJsonDumps (some []) = none ∧
    (∃ res, update_status wEnv noFault wState "job1" "AAPL" "running"
        "ingestion" none (some []) 9 = .ok res ∧
      ∃ r2, findRecord res.state.table "job1" = some r2 ∧
        r2.metadata = wRec.metadata) := by
  obtain ⟨h1, h2, _, h4⟩ := claim_C10_empty_metadata_is_none wEnv noFault
    wState "job1" "AAPL" "running" "ingestion" none 9
  exact ⟨h1, h2, h4 wRec rfl⟩

end JobTracker
